import Mathlib

/-!
Verification of the page/component runtime of the `ttyx` TUI application.

Rust source files are embedded shallowly: `usize` becomes `Nat` (Rust's
saturating operations become Lean's truncated `Nat` operations, which agree),
structs become structures, and operations that can panic in Rust (division
or remainder by zero, arithmetic underflow under debug overflow checks)
return `Option`, with `none` marking the panic.
-/

namespace Ttyx

/-! ## ScrollState (src/pages/mod.rs, lines 37-83) -/

/-- `ScrollState` from `src/pages/mod.rs`: a cursor plus viewport for
scrollable content.  All three fields are `usize` in the source. -/
structure ScrollState where
  position : Nat
  view_size : Nat
  max : Nat
  deriving Repr, DecidableEq

namespace ScrollState

/-- `ScrollState::new(max)`: position 0, view_size 1. -/
def new (max : Nat) : ScrollState :=
  { position := 0, view_size := 1, max := max }

/-- `ScrollState::scroll_down`: saturating increment, then clamp to `max`
(not to `max - view_size`) once past `max.saturating_sub(view_size - view_size / 6)`. -/
def scroll_down (s : ScrollState) : ScrollState :=
  let position := s.position + 1
  if position > s.max - (s.view_size - s.view_size / 6) then
    { s with position := s.max }
  else
    { s with position := position }

/-- `ScrollState::scroll_up`: from at-or-past `max`, jump to
`max.saturating_sub(view_size - view_size / 6)`; otherwise saturating decrement. -/
def scroll_up (s : ScrollState) : ScrollState :=
  if s.position ≥ s.max then
    { s with position := s.max - (s.view_size - s.view_size / 6) }
  else
    { s with position := s.position - 1 }

/-- `ScrollState::scroll_page_down`. -/
def scroll_page_down (s : ScrollState) : ScrollState :=
  { s with position := s.position + s.view_size }

/-- `ScrollState::scroll_page_up`. -/
def scroll_page_up (s : ScrollState) : ScrollState :=
  { s with position := s.position - s.view_size }

/-- `ScrollState::scroll_top`. -/
def scroll_top (s : ScrollState) : ScrollState :=
  { s with position := 0 }

/-- `ScrollState::scroll_bottom`. -/
def scroll_bottom (s : ScrollState) : ScrollState :=
  { s with position := s.max - s.view_size }

end ScrollState

/-- The four scroll operations quantified over by the spec's ScrollState
invariant (scroll_up / scroll_down / scroll_top / scroll_bottom). -/
inductive ScrollOp
  | up
  | down
  | top
  | bottom
  deriving Repr, DecidableEq

/-- Apply one scroll operation. -/
def applyScrollOp (s : ScrollState) : ScrollOp → ScrollState
  | .up => s.scroll_up
  | .down => s.scroll_down
  | .top => s.scroll_top
  | .bottom => s.scroll_bottom

/-- Apply a finite sequence of scroll operations, first element first. -/
def applyScrollOps (s : ScrollState) (ops : List ScrollOp) : ScrollState :=
  ops.foldl applyScrollOp s

theorem applyScrollOp_max (s : ScrollState) (op : ScrollOp) :
    (applyScrollOp s op).max = s.max := by
  cases op <;>
    simp only [applyScrollOp, ScrollState.scroll_up, ScrollState.scroll_down,
      ScrollState.scroll_top, ScrollState.scroll_bottom] <;>
    split <;> rfl

theorem applyScrollOp_view_size (s : ScrollState) (op : ScrollOp) :
    (applyScrollOp s op).view_size = s.view_size := by
  cases op <;>
    simp only [applyScrollOp, ScrollState.scroll_up, ScrollState.scroll_down,
      ScrollState.scroll_top, ScrollState.scroll_bottom] <;>
    split <;> rfl

/-- Every single scroll operation leaves the position at or below `max`,
whatever the starting position. -/
theorem applyScrollOp_position_le_max (s : ScrollState) (op : ScrollOp) :
    (applyScrollOp s op).position ≤ s.max := by
  cases op
  · simp only [applyScrollOp, ScrollState.scroll_up]
    split
    · exact Nat.sub_le _ _
    · next h =>
      show s.position - 1 ≤ s.max
      omega
  · simp only [applyScrollOp, ScrollState.scroll_down]
    split
    · exact Nat.le_refl _
    · next h =>
      show s.position + 1 ≤ s.max
      have hsub : s.max - (s.view_size - s.view_size / 6) ≤ s.max := Nat.sub_le _ _
      omega
  · exact Nat.zero_le _
  · exact Nat.sub_le _ _

/-- C1, counterexample. The claimed invariant `position ≤ max.saturating_sub(view_size)`
is broken by a single `scroll_down`: with `max = 10`, `view_size = 4`,
starting from `position = 6` (which satisfies the bound, `6 ≤ 10 - 4`),
`scroll_down` clamps the position to `max = 10 > 6`. -/
theorem scrollState_claimed_bound_counterexample :
    ({ position := 6, view_size := 4, max := 10 : ScrollState }.position
        ≤ 10 - 4)
    ∧ ¬ ((applyScrollOps { position := 6, view_size := 4, max := 10 }
          [ScrollOp.down]).position ≤ 10 - 4) := by
  decide

/-- Sequences of scroll operations preserve `position ≤ max`. -/
theorem applyScrollOps_position_le_max_aux (ops : List ScrollOp) :
    ∀ s : ScrollState, s.position ≤ s.max →
      (applyScrollOps s ops).position ≤ s.max := by
  induction ops with
  | nil => exact fun s h => h
  | cons op rest ih =>
    intro s h
    have hstep : (applyScrollOp s op).position ≤ s.max :=
      applyScrollOp_position_le_max s op
    have hmax : (applyScrollOp s op).max = s.max := applyScrollOp_max s op
    have := ih (applyScrollOp s op) (by rw [hmax]; exact hstep)
    simpa [applyScrollOps, hmax] using this

/-- C1 (amended): for every `ScrollState` with `max = M`, `view_size = V`,
and every finite sequence of scroll_up / scroll_down / scroll_top /
scroll_bottom calls starting from a position with
`0 ≤ position ≤ M.saturating_sub(V)`, after every call the position
satisfies `0 ≤ position ≤ M` (the tighter claimed bound
`M.saturating_sub(V)` fails, see the counterexample; `M` is the bound the
operations actually maintain).  Quantifying over all operation lists covers
every prefix of a sequence, hence the state after every call. -/
theorem scrollState_position_bounded (s : ScrollState)
    (h : s.position ≤ s.max - s.view_size) (ops : List ScrollOp) :
    0 ≤ (applyScrollOps s ops).position ∧
      (applyScrollOps s ops).position ≤ s.max := by
  refine ⟨Nat.zero_le _, ?_⟩
  exact applyScrollOps_position_le_max_aux ops s (Nat.le_trans h (Nat.sub_le _ _))

/-- Closed witness for `scrollState_position_bounded` at max = 10,
view_size = 4, position = 6 and the sequence [down, down, up, top, bottom]. -/
theorem scrollState_position_bounded_witness :
    0 ≤ (applyScrollOps { position := 6, view_size := 4, max := 10 }
          [ScrollOp.down, ScrollOp.down, ScrollOp.up, ScrollOp.top,
            ScrollOp.bottom]).position ∧
      (applyScrollOps { position := 6, view_size := 4, max := 10 }
          [ScrollOp.down, ScrollOp.down, ScrollOp.up, ScrollOp.top,
            ScrollOp.bottom]).position ≤ 10 :=
  scrollState_position_bounded { position := 6, view_size := 4, max := 10 }
    (by decide) _

/-! ## StatefulList (src/pages/mod.rs, lines 97-132)

`StatefulList<T>` wraps a `ratatui` `ListState` (whose relevant content is
the `selected : Option<usize>` cursor) plus an item vector.  The embedding
keeps exactly that data.  `next` and `previous` can panic in Rust on an
empty item vector (`(i + 1) % items.len()` divides by zero;
`items.len() - 1` underflows, a panic under debug overflow checks), so both
return `Option`, with `none` marking the panic. -/

/-- `StatefulList` from `src/pages/mod.rs`, specialised to `String` items
(the element type never influences `next`/`previous`). -/
structure StatefulList where
  selected : Option Nat
  items : List String
  deriving Repr, DecidableEq

namespace StatefulList

/-- `StatefulList::next`: wrap forward via `(i + 1) % items.len()`;
`none` when Rust would panic (remainder by zero). -/
def next (l : StatefulList) : Option StatefulList :=
  match l.selected with
  | some i =>
    if l.items.length = 0 then none
    else some { l with selected := some ((i + 1) % l.items.length) }
  | none => some { l with selected := some 0 }

/-- `StatefulList::previous`: wrap backward, `items.len() - 1` from index 0;
`none` when Rust would panic (subtraction underflow on an empty vector). -/
def previous (l : StatefulList) : Option StatefulList :=
  match l.selected with
  | some i =>
    if i = 0 then
      if l.items.length = 0 then none
      else some { l with selected := some (l.items.length - 1) }
    else some { l with selected := some (i - 1) }
  | none => some { l with selected := some 0 }

end StatefulList

/-- C3: on a `StatefulList` of length `N > 0` with any selected index
`i ∈ [0, N)`, `next` then `previous` returns the state (in particular the
selected index) to its original value, and so does `previous` then `next`;
neither operation panics along the way. -/
theorem statefulList_next_previous_roundtrip (l : StatefulList) (i : Nat)
    (hsel : l.selected = some i) (hi : i < l.items.length) :
    l.next.bind StatefulList.previous = some l ∧
      l.previous.bind StatefulList.next = some l := by
  have hN : l.items.length ≠ 0 := Nat.not_eq_zero_of_lt hi
  constructor
  · have hnext : l.next
        = some { l with selected := some ((i + 1) % l.items.length) } := by
      simp [StatefulList.next, hsel, hN]
    rw [hnext]
    show StatefulList.previous
        { l with selected := some ((i + 1) % l.items.length) } = some l
    by_cases hmod : (i + 1) % l.items.length = 0
    · have hone : i + 1 = l.items.length := by
        by_contra hne
        have hlt : i + 1 < l.items.length := by omega
        rw [Nat.mod_eq_of_lt hlt] at hmod
        omega
      simp only [StatefulList.previous]
      rw [if_pos hmod, if_neg hN]
      have hback : l.items.length - 1 = i := by omega
      rw [hback, ← hsel]
    · have hlt : i + 1 < l.items.length := by
        by_contra hge
        have heq : i + 1 = l.items.length := by omega
        rw [heq, Nat.mod_self] at hmod
        exact hmod rfl
      simp only [StatefulList.previous]
      rw [if_neg (by rw [Nat.mod_eq_of_lt hlt]; omega :
        ¬ (i + 1) % l.items.length = 0)]
      rw [Nat.mod_eq_of_lt hlt, Nat.add_sub_cancel, ← hsel]
  · by_cases h0 : i = 0
    · have hprev : l.previous
          = some { l with selected := some (l.items.length - 1) } := by
        simp [StatefulList.previous, hsel, h0, hN]
      rw [hprev]
      show StatefulList.next
          { l with selected := some (l.items.length - 1) } = some l
      simp only [StatefulList.next]
      rw [if_neg hN]
      have hmod : (l.items.length - 1 + 1) % l.items.length = 0 := by
        have h1 : l.items.length - 1 + 1 = l.items.length := by omega
        rw [h1, Nat.mod_self]
      rw [hmod, ← h0, ← hsel]
    · have hprev : l.previous = some { l with selected := some (i - 1) } := by
        simp [StatefulList.previous, hsel, h0]
      rw [hprev]
      show StatefulList.next { l with selected := some (i - 1) } = some l
      simp only [StatefulList.next]
      rw [if_neg hN]
      have hmod : (i - 1 + 1) % l.items.length = i := by
        have h1 : i - 1 + 1 = i := by omega
        rw [h1]
        exact Nat.mod_eq_of_lt hi
      rw [hmod, ← hsel]

/-- Closed witness for `statefulList_next_previous_roundtrip` on a
three-item list with selected index 2. -/
theorem statefulList_next_previous_roundtrip_witness :
    ({ selected := some 2, items := ["a", "b", "c"] } : StatefulList).next.bind
        StatefulList.previous
      = some { selected := some 2, items := ["a", "b", "c"] } ∧
    ({ selected := some 2, items := ["a", "b", "c"] } : StatefulList).previous.bind
        StatefulList.next
      = some { selected := some 2, items := ["a", "b", "c"] } :=
  statefulList_next_previous_roundtrip
    { selected := some 2, items := ["a", "b", "c"] } 2 rfl (by decide)

/-- C9, counterexample. The claim states that on an empty list with a
selection present `previous` panics by underflow in `items.len() - 1`; but
with `selected = Some 1` the `i == 0` branch is not taken and `previous`
returns normally (selecting `Some 0`), so the claim as stated is false. -/
theorem statefulList_empty_previous_counterexample :
    ({ selected := some 1, items := [] } : StatefulList).previous
      = some { selected := some 0, items := [] } := by
  decide

/-- C9 (amended): on an empty `StatefulList`, `next` with any selection
`Some i` panics (remainder by zero in `(i + 1) % items.len()`); `previous`
panics (underflow in `items.len() - 1`) exactly when the selection is
`Some 0`, while for `Some i` with `i > 0` it sets the selection to
`Some (i - 1)` without panicking; with no selection, both operations set
the selection to `Some 0` even though the list has no element at index 0. -/
theorem statefulList_empty_behaviour (l : StatefulList)
    (hempty : l.items = []) :
    (∀ i, l.selected = some i → l.next = none) ∧
    (l.selected = some 0 → l.previous = none) ∧
    (∀ i, l.selected = some (i + 1) →
      l.previous = some { l with selected := some i }) ∧
    (l.selected = none →
      l.next = some { l with selected := some 0 } ∧
        l.previous = some { l with selected := some 0 }) := by
  refine ⟨?_, ?_, ?_, ?_⟩
  · intro i hsel
    simp [StatefulList.next, hsel, hempty]
  · intro hsel
    simp [StatefulList.previous, hsel, hempty]
  · intro i hsel
    simp [StatefulList.previous, hsel, hempty]
  · intro hsel
    simp [StatefulList.next, StatefulList.previous, hsel, hempty]

/-- Closed witness for `statefulList_empty_behaviour` on the empty list. -/
theorem statefulList_empty_behaviour_witness :
    ({ selected := some 3, items := [] } : StatefulList).next = none ∧
    ({ selected := none, items := [] } : StatefulList).previous
      = some { selected := some 0, items := [] } :=
  ⟨(statefulList_empty_behaviour { selected := some 3, items := [] } rfl).1
      3 rfl,
    ((statefulList_empty_behaviour { selected := none, items := [] } rfl).2.2.2
      rfl).2⟩

/-! ## MouseListState (src/pages/components/mouselist.rs, lines 125-179) -/

/-- `ratatui::layout::Rect` (u16 fields); only carried opaquely by
`MouseListState.areas`, never inspected by `select`. -/
structure Rect where
  x : Nat
  y : Nat
  width : Nat
  height : Nat
  deriving Repr, DecidableEq

/-- `MouseListState` from `src/pages/components/mouselist.rs`. -/
structure MouseListState where
  position : Nat
  view_size : Nat
  areas : List Rect
  selected : Option Nat
  max : Nat
  deriving Repr, DecidableEq

namespace MouseListState

/-- `MouseListState::new(max)`. -/
def new (max : Nat) : MouseListState :=
  { position := 0, view_size := 1, areas := [], selected := none, max := max }

/-- `MouseListState::select(index)`: stores `index` into `selected`
unconditionally, then snaps `position` only when the index is in bounds;
an out-of-bounds index is merely logged (`error!`), so the function is
total — the Rust body contains no panicking operation. -/
def select (s : MouseListState) (index : Option Nat) : MouseListState :=
  let s := { s with selected := index }
  match index with
  | some i => if i ≥ s.max then s else { s with position := i }
  | none => s

end MouseListState

/-- C4: `MouseListState::select(Some(i))` with `i ≥ max` leaves `position`
unchanged (the out-of-bounds condition is only logged — `select` is a total
function, so no panic is possible); with `i < max`, `position` is set
to `i`. -/
theorem mouseListState_select_bounds (s : MouseListState) (i : Nat) :
    (s.max ≤ i → (s.select (some i)).position = s.position) ∧
      (i < s.max → (s.select (some i)).position = i) := by
  constructor
  · intro h
    simp [MouseListState.select, Nat.le_of_lt, if_pos h]
  · intro h
    simp [MouseListState.select, Nat.not_le_of_lt h]

/-- Closed witness for `mouseListState_select_bounds` at `max = 3` with the
out-of-bounds index 7 and the in-bounds index 2. -/
theorem mouseListState_select_bounds_witness :
    ((MouseListState.new 3).select (some 7)).position
        = (MouseListState.new 3).position ∧
      ((MouseListState.new 3).select (some 2)).position = 2 :=
  ⟨(mouseListState_select_bounds (MouseListState.new 3) 7).1 (by decide),
    (mouseListState_select_bounds (MouseListState.new 3) 2).2 (by decide)⟩

/-- C10: `select` overwrites `selected` with the argument before the bounds
check, so `select(Some(i))` with `i ≥ max` ends with the out-of-range value
`Some i` stored in `selected` while `position` stays protected; no field
other than `selected` and `position` is modified (`view_size`, `max` and
`areas` are untouched, and `select(None)` changes `selected` alone). -/
theorem mouseListState_select_frame (s : MouseListState) (i : Nat) :
    (s.select (some i)).selected = some i ∧
      (s.select (some i)).view_size = s.view_size ∧
      (s.select (some i)).max = s.max ∧
      (s.select (some i)).areas = s.areas ∧
      (s.max ≤ i → (s.select (some i)).position = s.position) ∧
      s.select none = { s with selected := none } := by
  refine ⟨?_, ?_, ?_, ?_, ?_, ?_⟩ <;>
    simp only [MouseListState.select] <;>
    first
      | rfl
      | (split <;> rfl)
      | (intro h; rw [if_pos h])

/-- Closed witness for `mouseListState_select_frame` at `max = 3`,
index 7. -/
theorem mouseListState_select_frame_witness :
    ((MouseListState.new 3).select (some 7)).selected = some 7 ∧
      ((MouseListState.new 3).select (some 7)).position
        = (MouseListState.new 3).position :=
  ⟨(mouseListState_select_frame (MouseListState.new 3) 7).1,
    (mouseListState_select_frame (MouseListState.new 3) 7).2.2.2.2.1
      (by decide)⟩

/-! ## Selection-to-content scroll sizing
(src/pages/filebrowser.rs lines 150-157, src/pages/setting.rs lines 169-176)

Both `Filebrowser::update` and `Setting::update` react to
`Action::SelectOption` by loading the selected file and computing, from the
page area height and the file's line count, a viewport size and a fresh
`ScrollState`.  The computation is identical in both files and is embedded
here once. -/

/-- The scroll sizing of the `Action::SelectOption` arm: `height` is
`self.area.height`, `lines` is `markdown.lines().count()`.  Returns the
computed `view_size` together with the freshly constructed `ScrollState`. -/
def selectOptionScroll (height lines : Nat) : Nat × ScrollState :=
  let view_size := height
  let max := lines
  let view_size := if max < view_size then 0 else view_size / 2 - view_size / 3
  (view_size, ScrollState.new (max - view_size))

/-- C2: on `Action::SelectOption` with a loaded file of `L` lines and a page
area of height `H`: if `L ≥ H` the computed view size is `H/2 - H/3`
(integer division) and the fresh `ScrollState` has `max = L - (H/2 - H/3)`;
if `H > L` the computed view size is 0 and the `ScrollState` has
`max = L`. -/
theorem selectOptionScroll_spec (H L : Nat) :
    (H ≤ L → (selectOptionScroll H L).1 = H / 2 - H / 3 ∧
      (selectOptionScroll H L).2.max = L - (H / 2 - H / 3)) ∧
    (L < H → (selectOptionScroll H L).1 = 0 ∧
      (selectOptionScroll H L).2.max = L) := by
  constructor
  · intro h
    have hnot : ¬ L < H := Nat.not_lt_of_le h
    simp [selectOptionScroll, ScrollState.new, hnot]
  · intro h
    simp [selectOptionScroll, ScrollState.new, h]

/-- Closed witness for `selectOptionScroll_spec`: L = 100, H = 20 gives
view size 4 and max 96; L = 10, H = 20 gives view size 0 and max 10. -/
theorem selectOptionScroll_spec_witness :
    ((selectOptionScroll 20 100).1 = 4 ∧ (selectOptionScroll 20 100).2.max = 96)
      ∧ ((selectOptionScroll 20 10).1 = 0
        ∧ (selectOptionScroll 20 10).2.max = 10) := by
  have hbig := (selectOptionScroll_spec 20 100).1 (by decide)
  have hsmall := (selectOptionScroll_spec 20 10).2 (by decide)
  exact ⟨⟨hbig.1, hbig.2⟩, ⟨hsmall.1, hsmall.2⟩⟩

/-! ## Toast countdown (src/pages/components/toast.rs, lines 58-76)

A toast entry's relevant state is its remaining `duration`; every toast is
created with `Duration::from_secs(5)`, so durations stay whole seconds and
are embedded as `Nat` seconds.  `Toast::render_tick` throttles on wall
clock: its body below the `elapsed >= 1.0` test runs once per render tick.
That body — decrement the front toast's duration by one second
(`checked_sub`, a no-op below one second) and pop the front toast if its
duration reached zero — is the embedded function. -/

namespace Toast

/-- The per-render-tick countdown of `Toast::render_tick` (the branch taken
when at least one second elapsed): `checked_sub` one second from the front
toast, then remove the front toast when its duration is zero. -/
def render_tick (toasts : List Nat) : List Nat :=
  let toasts :=
    match toasts with
    | [] => ([] : List Nat)
    | d :: rest => (if 1 ≤ d then d - 1 else d) :: rest
  match toasts with
  | 0 :: rest => rest
  | ts => ts

end Toast

/-- C5: a toast created with duration 5 seconds is removed after exactly 5
render-tick decrements of one second each (the decrement and the zero check
happen in the same tick), and after only 4 decrements it is still present
with 1 second remaining. -/
theorem toast_five_tick_removal :
    Toast.render_tick^[5] [5] = [] ∧ Toast.render_tick^[4] [5] = [1] := by
  decide

/-! ## App registry and dispatch (src/app.rs)

The `src/app.rs` under `src/` is the web build of the application: its page
key enum is `Page` (Login / Home / Settings / Help), its registry is a
`HashMap<Page, View>` built in `App::new` with entries for Login, Settings
and Help only, and its `Component::handle_events` returns `Option<bool>`
(a handled flag).  A page's handler is embedded as a function from the key
event to that flag; page-internal mutation is outside the dispatch logic
the claims are about.  The web crate's `utils::Action` declaration is not
under `src/`; its constructors below are the ones `App::handle_actions`
matches, with `otherAction` standing for every variant that reaches the
wildcard arm. -/

/-- `Page` from `src/app.rs` (web build). -/
inductive Page
  | Login
  | Home
  | Settings
  | Help
  deriving Repr, DecidableEq

/-- The `InputMode` private to `src/app.rs` (Normal / Other). -/
inductive AppInputMode
  | Normal
  | Other
  deriving Repr, DecidableEq

/-- `ratzilla::event::KeyCode` restricted to what `App::handle_events`
distinguishes: character keys and everything else. -/
inductive AppKeyCode
  | char (c : Char)
  | nonChar
  deriving Repr, DecidableEq

/-- `ratzilla::event::KeyEvent`; `App::handle_events` only reads `code`. -/
structure AppKeyEvent where
  code : AppKeyCode
  deriving Repr, DecidableEq

/-- A page's `Component::handle_events` behaviour (web build): key event to
optional handled flag. -/
def PageHandler : Type := AppKeyEvent → Option Bool

/-- The dispatch-relevant fields of `App`. -/
structure AppDispatch where
  input_mode : AppInputMode
  current_mode : Page
  deriving DecidableEq

/-- The new current mode chosen by the global navigation bindings of
`App::handle_events`, one arm per source match arm ('q' / 'h' / 'm' under
`InputMode::Normal`; 'q' / 'h' under `InputMode::Other`; every other key
leaves the mode unchanged). -/
def globalNav (im : AppInputMode) (key : AppKeyEvent) (current : Page) : Page :=
  match im with
  | .Normal =>
    match key.code with
    | .char 'q' => .Settings
    | .char 'h' => .Login
    | .char 'm' => .Help
    | _ => current
  | .Other =>
    match key.code with
    | .char 'q' => .Settings
    | .char 'h' => .Home
    | _ => current

/-- `App::handle_events`: iterate over the page registry, calling
`handle_events` only on entries whose key equals the current mode and
keeping the last `Some` result; if the outcome is `None` or `Some(false)`,
apply the global navigation bindings (whose new mode is `globalNav`). -/
def handle_events (pages : List (Page × PageHandler)) (app : AppDispatch)
    (key : AppKeyEvent) : AppDispatch :=
  let handled := pages.foldl
    (fun handled pg =>
      if pg.1 = app.current_mode then
        match pg.2 key with
        | some b => some b
        | none => handled
      else handled)
    (none : Option Bool)
  if handled = none ∨ handled = some false then
    { app with current_mode := globalNav app.input_mode key app.current_mode }
  else app

/-- The response of the page registered for `current`, if any: the
`HashMap` lookup that `App::handle_events`'s iteration amounts to. -/
def currentPageResponse : List (Page × PageHandler) → Page → AppKeyEvent →
    Option Bool
  | [], _, _ => none
  | pg :: rest, current, key =>
    if pg.1 = current then pg.2 key else currentPageResponse rest current key

theorem dispatchFold_no_match (current : Page) (key : AppKeyEvent)
    (pages : List (Page × PageHandler)) (acc : Option Bool)
    (h : ∀ pg ∈ pages, pg.1 ≠ current) :
    pages.foldl
      (fun handled pg =>
        if pg.1 = current then
          match pg.2 key with
          | some b => some b
          | none => handled
        else handled) acc = acc := by
  induction pages generalizing acc with
  | nil => rfl
  | cons pg rest ih =>
    have hne : pg.1 ≠ current := h pg (List.mem_cons_self _ _)
    simp only [List.foldl_cons, if_neg hne]
    exact ih acc fun p hp => h p (List.mem_cons_of_mem _ hp)

theorem dispatchFold_eq_currentPageResponse (current : Page)
    (key : AppKeyEvent) (pages : List (Page × PageHandler))
    (hkeys : (pages.map Prod.fst).Nodup) :
    pages.foldl
      (fun handled pg =>
        if pg.1 = current then
          match pg.2 key with
          | some b => some b
          | none => handled
        else handled) (none : Option Bool)
      = currentPageResponse pages current key := by
  induction pages with
  | nil => rfl
  | cons pg rest ih =>
    simp only [List.map_cons, List.nodup_cons] at hkeys
    by_cases hc : pg.1 = current
    · have hnot : ∀ p ∈ rest, p.1 ≠ current := by
        intro p hp heq
        exact hkeys.1 (by rw [hc, ← heq]; exact List.mem_map_of_mem Prod.fst hp)
      simp only [List.foldl_cons, if_pos hc]
      rw [dispatchFold_no_match current key rest _ hnot]
      simp only [currentPageResponse, if_pos hc]
      cases pg.2 key <;> rfl
    · simp only [List.foldl_cons, if_neg hc]
      rw [ih hkeys.2]
      simp only [currentPageResponse, if_neg hc]

/-- C8: `App::handle_events` forwards the key event only to the page whose
registry key equals the current mode — the outcome is a function of that
page's response alone — and the global navigation bindings (whose
mode-switch hotkeys are selected by the internal input-mode enum, Normal
versus Other, via `globalNav`) are applied exactly when that response is
`None` or `Some(false)`. -/
theorem app_handle_events_spec (pages : List (Page × PageHandler))
    (app : AppDispatch) (key : AppKeyEvent)
    (hkeys : (pages.map Prod.fst).Nodup) :
    (handle_events pages app key
        = if currentPageResponse pages app.current_mode key = none
            ∨ currentPageResponse pages app.current_mode key = some false
          then { app with
                  current_mode := globalNav app.input_mode key app.current_mode }
          else app) ∧
      (handle_events pages app key).input_mode = app.input_mode ∧
      (∀ pages₂ : List (Page × PageHandler),
        (pages₂.map Prod.fst).Nodup →
        currentPageResponse pages₂ app.current_mode key
            = currentPageResponse pages app.current_mode key →
        handle_events pages₂ app key = handle_events pages app key) := by
  have hchar : handle_events pages app key
      = if currentPageResponse pages app.current_mode key = none
          ∨ currentPageResponse pages app.current_mode key = some false
        then { app with
                current_mode := globalNav app.input_mode key app.current_mode }
        else app := by
    unfold handle_events
    rw [dispatchFold_eq_currentPageResponse app.current_mode key pages hkeys]
  refine ⟨hchar, ?_, ?_⟩
  · rw [hchar]
    split <;> rfl
  · intro pages₂ hkeys₂ hresp
    have hchar₂ := (dispatchFold_eq_currentPageResponse app.current_mode key
      pages₂ hkeys₂)
    rw [hchar]
    unfold handle_events
    rw [hchar₂, hresp]

/-- Closed witness for `app_handle_events_spec`: a registry whose Login page
declines the event (`None`); under `InputMode::Normal` the 'm' hotkey then
switches the current mode to Help. -/
theorem app_handle_events_spec_witness :
    handle_events [(Page.Login, fun _ => (none : Option Bool))]
        { input_mode := .Normal, current_mode := .Login }
        { code := .char 'm' }
      = { input_mode := .Normal, current_mode := .Help } := by
  have h := (app_handle_events_spec
    [(Page.Login, fun _ => (none : Option Bool))]
    { input_mode := .Normal, current_mode := .Login }
    { code := .char 'm' } (by simp)).1
  rw [h]
  rfl

/-! ## App::run and the NotFound fallback (src/app.rs lines 131-192,
src/pages/notfound.rs) -/

/-- The web crate's `utils::Action`, reconstructed from the constructors
`App::handle_actions` matches (its declaring module is not under `src/`);
`otherAction` stands for every variant handled by the wildcard arm. -/
inductive WebAction
  | ChangePage (page : Page)
  | SubmitEmail (email : String)
  | otherAction
  deriving Repr, DecidableEq

/-- The registered views of `App::new`: `Login`, `Message` (the text input
page) and `Clip`; `NotFound` is constructed separately during `run`. -/
inductive PageView
  | login
  | message
  | clip
  deriving Repr, DecidableEq

/-- The page registry built in `App::new`
(`HashMap::from([(Login, login), (Settings, input), (Help, clip)])`);
`Page.Home` has no entry. -/
def appPages : Page → Option PageView
  | .Login => some .login
  | .Settings => some .message
  | .Help => some .clip
  | .Home => none

/-- `App::handle_actions`: drain the queued actions in order.
`ChangePage` replaces the current mode; `SubmitEmail` sets the current mode
to `Settings` and then — if no action sender is registered (`tx = None`) —
returns early, dropping the rest of the queue; every other variant is
ignored. -/
def handle_actions (txSome : Bool) : Page → List WebAction → Page
  | current, [] => current
  | _, .ChangePage page :: rest => handle_actions txSome page rest
  | _, .SubmitEmail _ :: rest =>
    if txSome then handle_actions txSome .Settings rest else .Settings
  | current, .otherAction :: rest => handle_actions txSome current rest

/-- What one `App::run` call draws: a registered page, or the NotFound
view (`NotFound::new().draw(frame)`). -/
inductive Rendered
  | page (v : PageView)
  | notFound
  deriving Repr, DecidableEq

/-- `App::run`: drain the queued actions with `handle_actions`, then draw
the page registered for the (possibly updated) current mode, falling back
to the NotFound view when the registry has no entry.  Returns the drawn
view and the new current mode.  Total: every mode draws something. -/
def run (txSome : Bool) (current : Page) (pending : List WebAction) :
    Rendered × Page :=
  let current := handle_actions txSome current pending
  (match appPages current with
    | some page => Rendered.page page
    | none => Rendered.notFound,
   current)

/-- C6: `App::run` draws for every current mode (it is a total function):
when the registry has no entry for the mode reached after draining the
queue it draws the NotFound view, when the registry has an entry it draws
that page; and from any state, a later `run` that processes
`ChangePage` back to a registered mode draws that registered page
normally. -/
theorem app_run_notFound_fallback (txSome : Bool) (current : Page)
    (pending : List WebAction) :
    (appPages (handle_actions txSome current pending) = none →
      (run txSome current pending).1 = Rendered.notFound) ∧
    (∀ v, appPages (handle_actions txSome current pending) = some v →
      (run txSome current pending).1 = Rendered.page v) ∧
    (∀ m v, appPages m = some v →
      (run txSome (run txSome current pending).2 [WebAction.ChangePage m]).1
        = Rendered.page v) := by
  refine ⟨?_, ?_, ?_⟩
  · intro h
    simp only [run, h]
  · intro v h
    simp only [run, h]
  · intro m v h
    simp only [run, handle_actions, h]

/-- Closed witness for `app_run_notFound_fallback`: `Page.Home` is not in
the registry, so `run` at Home draws NotFound; processing
`ChangePage(Login)` afterwards draws the Login page again. -/
theorem app_run_notFound_fallback_witness :
    (run true Page.Home []).1 = Rendered.notFound ∧
      (run true (run true Page.Home []).2 [WebAction.ChangePage Page.Login]).1
        = Rendered.page PageView.login :=
  ⟨(app_run_notFound_fallback true Page.Home []).1 rfl,
    (app_run_notFound_fallback true Page.Home []).2.2 Page.Login
      PageView.login rfl⟩

/-! ## The terminal build's Action vocabulary and Login page
(src/utils/action.rs, src/utils/inputmode.rs, src/pages/login.rs)

The terminal build's `app::Mode` declaration is not under `src/`; the
constructors below are the ones the embedded code mentions
(`Mode::Home`, `Mode::Signup`), with `otherMode` for the rest. -/

/-- `InputMode` from `src/utils/inputmode.rs`. -/
inductive InputMode
  | Normal
  | Insert
  | OptionInput
  | InsertUser
  | InsertPass
  | Processing
  | Submit
  | Select
  | Cancel
  deriving Repr, DecidableEq

/-- `crossterm::event::MouseEvent` as stored by `Login::update`
(never inspected there). -/
structure MouseEvent where
  column : Nat
  row : Nat
  deriving Repr, DecidableEq

/-- `app::Mode` of the terminal build (declaring module missing from
`src/`): constructors used by the embedded pages, plus a stand-in. -/
inductive Mode
  | Home
  | Signup
  | otherMode
  deriving Repr, DecidableEq

/-- `Action` from `src/utils/action.rs`. -/
inductive Action
  | Tick
  | Render
  | Resize (w h : Nat)
  | Mouse (m : MouseEvent)
  | ToggleNav
  | Suspend
  | Resume
  | Quit
  | Refresh
  | Error (msg : String)
  | Back
  | Forward
  | ChangeMode (mode : Mode)
  | NextView
  | PreviousView
  | PausePlay
  | Settings
  | Home
  | SelectOption
  | OpenFile
  | SelectItem
  | ClosePopup
  | CloseToast
  | ToggleShowHelp
  | ToggleShowQuit
  | ToggleUsers
  | ToggleChats
  | ToggleLog
  | ToggleSidebar
  | OpenFilepicker
  | ScrollUp
  | ScrollDown
  | ScheduleIncrement
  | ScheduleDecrement
  | Increment (n : Nat)
  | Decrement (n : Nat)
  | CompleteInput (s : String)
  | Login
  | Register
  | Toast (title body : String)
  | Popup (title body : String)
  | EnterNormal
  | EnterInput
  | LoggedIn
  | LoggedOut
  | EnterInsert
  | EnterProcessing
  | Cycle
  | Update
  deriving Repr, DecidableEq

/-- The `Items` menu enum of `src/pages/login.rs`. -/
inductive Items
  | Email
  | Password
  | Submit
  | Switch
  | Local
  deriving Repr, DecidableEq

/-- `Items::ALL`. -/
def Items.ALL : List Items := [.Email, .Password, .Submit, .Switch, .Local]

/-- The state of the `Login` page (`src/pages/login.rs`) relevant to its
update/submit logic; the cached layout rectangles and the loader child are
rendering-only. -/
structure LoginState where
  menu_index : Nat
  mode : InputMode
  email : String
  password : String
  render_ticker : Nat
  mouse : Option MouseEvent
  deriving Repr, DecidableEq

namespace LoginState

/-- `Login::new()`: `InputMode::InsertUser`, all other fields default. -/
def new : LoginState :=
  { menu_index := 0, mode := .InsertUser, email := "", password := "",
    render_ticker := 0, mouse := none }

/-- `Login::login` (src/pages/login.rs lines 79-146).  The `validator`
crate's email rule is an external collaborator, abstracted as
`isValidEmail`; the derived `Auth::validate` checks that rule plus
`length(min = 3)` on the password.  The embedding assumes the action
sender has been registered (the source unwraps it first).  Returns the
actions sent synchronously on the action channel, paired with whether a
network task was spawned (`tokio::spawn` on the login POST). -/
def loginSubmit (isValidEmail : String → Bool) (email password : String) :
    List Action × Bool :=
  if isValidEmail email = true ∧ 3 ≤ password.length then
    ([], true)
  else
    ([Action.Toast "Validation Error" "Not a valid email.",
      Action.EnterNormal], false)

/-- `Login::update` (src/pages/login.rs lines 381-430), restricted to the
modeled fields; the `Action::Login` / `Action::Register` arms call
`Login::login` / `Login::register`, whose channel effects are modeled by
`loginSubmit`.  `none` marks the panic of `Items::ALL[self.menu_index]`
on an out-of-range menu index in the `SelectItem` arm. -/
def update (st : LoginState) (a : Action) :
    Option (LoginState × Option Action) :=
  match a with
  | .Render => some ({ st with render_ticker := st.render_ticker + 1 }, none)
  | .Mouse m => some ({ st with mouse := some m }, none)
  | .Forward =>
    some (if st.mode = .Normal then
        { st with menu_index := (st.menu_index + 1) % Items.ALL.length }
      else st, none)
  | .Back =>
    some (if st.mode = .Normal then
        { st with menu_index :=
            if st.menu_index = 0 then Items.ALL.length - 1
            else (st.menu_index - 1) % Items.ALL.length }
      else st, none)
  | .EnterProcessing => some ({ st with mode := .Processing }, none)
  | .Login => some (st, none)
  | .Register => some (st, none)
  | .Home => some ({ st with mode := .Normal }, some (.ChangeMode .Home))
  | .EnterNormal => some ({ st with mode := .Normal }, none)
  | .SelectItem =>
    match Items.ALL.get? st.menu_index with
    | some .Email => some ({ st with mode := .InsertUser }, none)
    | some .Password => some ({ st with mode := .InsertPass }, none)
    | some .Switch => some (st, some .Register)
    | some .Submit => some (st, some .Login)
    | some .Local => some (st, some .Home)
    | none => none
  | _ => some (st, none)

end LoginState

/-- C7: for every email string rejected by the email validator, `Login::login`
fails validation locally — no network task is spawned, the actions sent on
the channel are exactly a `Toast` with title "Validation Error" followed by
`EnterNormal` — and `Login::update` processing that `EnterNormal` returns
the input mode to `Normal`. -/
theorem login_invalid_email_flow (isValidEmail : String → Bool)
    (email password : String) (st : LoginState)
    (hbad : isValidEmail email = false) :
    LoginState.loginSubmit isValidEmail email password
      = ([Action.Toast "Validation Error" "Not a valid email.",
          Action.EnterNormal], false) ∧
      LoginState.update st Action.EnterNormal
        = some ({ st with mode := .Normal }, none) := by
  constructor
  · simp [LoginState.loginSubmit, hbad]
  · rfl

/-- Closed witness for `login_invalid_email_flow`: a validator requiring
an '@' character rejects "notanemail". -/
theorem login_invalid_email_flow_witness :
    LoginState.loginSubmit (fun s => s.data.contains '@') "notanemail" "secret"
      = ([Action.Toast "Validation Error" "Not a valid email.",
          Action.EnterNormal], false) ∧
      LoginState.update LoginState.new Action.EnterNormal
        = some ({ LoginState.new with mode := .Normal }, none) :=
  login_invalid_email_flow (fun s => s.data.contains '@') "notanemail" "secret"
    LoginState.new (by decide)

end Ttyx
